import Mathlib

/-!
Verification of the SolarMQTT repository: a shallow embedding of
`src/shared_mosquitto/config.h` (compile-time configuration macros) and
`src/shared_objc_PluginSolarMQTT/PluginSolarMQTT.h` (the Solar2D plugin
entry-point header), together with a model of the MQTT wire codec the
specification describes for this configuration surface.
-/

/-- The build environment under which the headers are preprocessed: which
platform/compiler identification macros are defined before inclusion, and
which errno macros the system headers already provide. -/
structure BuildEnv where
  apple : Bool
  freebsd : Bool
  netbsd : Bool
  win32 : Bool
  android : Bool
  mscVer : Option Nat
  econnabortedDefined : Bool
  enotconnDefined : Bool
  econnrefusedDefined : Bool
deriving DecidableEq

/-- `defined(_MSC_VER) && _MSC_VER < 1900`, the guard of the old-MSVC
compatibility block in config.h. -/
def oldMSVC (pf : BuildEnv) : Bool :=
  match pf.mscVer with
  | some v => decide (v < 1900)
  | none => false

/-- The macro environment produced by one inclusion of config.h: each field
records whether (and to what) the corresponding macro is defined.
Option-valued fields are `none` when the macro is not introduced; function
fields give the expansion of a function-like macro applied to its argument
token strings. -/
structure ConfigEnv where
  darwinCSource : Bool
  haveNetinetInH : Bool
  withTLS : Bool
  withTLSPSK : Bool
  withSRV : Bool
  withBroker : Bool
  withWebsockets : Bool
  withSocks : Bool
  withADNS : Bool
  withThreading : Bool
  snprintfDef : Option String
  eprotoDef : Option String
  econnabortedDef : Option String
  enotconnDef : Option String
  econnrefusedDef : Option String
  strcasecmpDef : Option String
  strncasecmpDef : Option String
  strtokRDef : Option String
  strerrorRDef : Option (String → String → String → String)
  uthashMallocDef : String → String
  uthashFreeDef : String → String → String
  unusedDef : String → String
  havePthreadCancel : Bool
  wsIsLws : Nat
  wsIsBuiltin : Nat
  topicHierLimit : Nat

/-- `#define TOPIC_HIERARCHY_LIMIT 200` (config.h line 86). -/
def TOPIC_HIERARCHY_LIMIT : Nat := 200

/-- Shallow embedding of `src/shared_mosquitto/config.h`: the macro
environment its inclusion produces on build environment `pf`, read off the
`#define`/`#if` structure of the file line by line. -/
def configH (pf : BuildEnv) : ConfigEnv :=
  { darwinCSource := pf.apple
    haveNetinetInH := !pf.apple && (pf.freebsd || pf.netbsd)
    withTLS := true
    withTLSPSK := false
    withSRV := false
    withBroker := false
    withWebsockets := false
    withSocks := false
    withADNS := false
    withThreading := true
    snprintfDef := if oldMSVC pf then some "sprintf_s" else none
    eprotoDef := if oldMSVC pf then some "ECONNABORTED" else none
    econnabortedDef :=
      if oldMSVC pf && !pf.econnabortedDefined then some "WSAECONNABORTED" else none
    enotconnDef :=
      if oldMSVC pf && !pf.enotconnDefined then some "WSAENOTCONN" else none
    econnrefusedDef :=
      if oldMSVC pf && !pf.econnrefusedDefined then some "WSAECONNREFUSED" else none
    strcasecmpDef := if pf.win32 then some "_stricmp" else none
    strncasecmpDef := if pf.win32 then some "_strnicmp" else none
    strtokRDef := if pf.win32 then some "strtok_s" else none
    strerrorRDef :=
      if pf.win32 then
        some (fun e b l => "strerror_s(" ++ b ++ ", " ++ l ++ ", " ++ e ++ ")")
      else none
    uthashMallocDef := fun sz => "mosquitto_malloc(" ++ sz ++ ")"
    uthashFreeDef := fun ptr _sz => "mosquitto_free(" ++ ptr ++ ")"
    unusedDef := fun a => "(void)(" ++ a ++ ")"
    havePthreadCancel := !pf.android && !pf.win32
    wsIsLws := 1
    wsIsBuiltin := 2
    topicHierLimit := TOPIC_HIERARCHY_LIMIT }

/-- A C function declaration: name, argument types, return type. -/
structure CDecl where
  name : String
  argTypes : List String
  retType : String
deriving DecidableEq

/-- Shallow embedding of `PluginSolarMQTT.h`: the list of function
declarations the header contributes (a single one,
`CORONA_EXPORT int luaopen_plugin_solarmqtt(lua_State *L)`). -/
def pluginSolarMQTTDecls : List CDecl :=
  [{ name := "luaopen_plugin_solarmqtt"
     argTypes := ["lua_State *"]
     retType := "int" }]

/-- Modelled from the spec: the Lua loader-name convention referenced by the
header comment (`require "plugin.solarmqtt"` resolves to the C symbol
`luaopen_` followed by the module name with each dot replaced by an
underscore); the convention itself is part of the scripting host, which is
not in this repository. -/
def luaLoaderName (modName : List Char) : List Char :=
  "luaopen_".toList ++ modName.map (fun c => if c = '.' then '_' else c)

/-- Modelled from the spec: the slash-delimited segment count of a topic
string (one more than the number of slash characters); the topic-validation
routine consuming TOPIC_HIERARCHY_LIMIT lives in the external library. -/
def topicSegmentCount (t : List Char) : Nat :=
  t.count '/' + 1

/-- Modelled from the spec: "topic strings are rejected if their
slash-delimited segment count exceeds 200" — the local topic check accepts a
topic exactly when its segment count is within TOPIC_HIERARCHY_LIMIT. -/
def topicHierarchyOk (t : List Char) : Bool :=
  topicSegmentCount t ≤ TOPIC_HIERARCHY_LIMIT

/-- The preprocessing state of a translation unit that may include the two
headers: the build environment, the two include-guard macros, the macros
accumulated from config.h and the declarations accumulated from
PluginSolarMQTT.h. -/
structure TUState where
  pf : BuildEnv
  configGuard : Bool
  pluginGuard : Bool
  cfg : Option ConfigEnv
  decls : List CDecl

/-- Including config.h: if the guard macro CONFIG_H is already defined the
file contributes nothing; otherwise it defines CONFIG_H and produces its
macro environment. -/
def includeConfigH (s : TUState) : TUState :=
  if s.configGuard then s
  else { s with configGuard := true, cfg := some (configH s.pf) }

/-- Including PluginSolarMQTT.h: if the guard macro is already defined the
file contributes nothing; otherwise it defines the guard and appends its
single declaration. -/
def includePluginH (s : TUState) : TUState :=
  if s.pluginGuard then s
  else { s with pluginGuard := true, decls := s.decls ++ pluginSolarMQTTDecls }

/-! ## Wire codec (modelled from the spec)

The spec's §4.1 Wire Codec for MQTT 3.1.1 control packets: `encode` to a
byte sequence, resumable `decode` returning a packet, "need more bytes", or
Malformed. Nothing of this component is in `src/`; every definition below is
modelled from the specification text. Bytes are naturals below 256. -/

/-- Modelled from the spec: a UTF-8 continuation byte (10xxxxxx). -/
def contB (b : Nat) : Bool :=
  decide (128 ≤ b ∧ b ≤ 191)

/-- Modelled from the spec: byte-level UTF-8 well-formedness of a string,
used for "UTF-8 validation failures on topic/property strings" — the
standard 1–4 byte forms, excluding overlong encodings, surrogates and
code points above U+10FFFF. -/
def validUtf8 : List Nat → Bool
  | [] => true
  | b :: rest =>
    if b ≤ 127 then validUtf8 rest
    else if 194 ≤ b ∧ b ≤ 223 then
      match rest with
      | c :: r2 => contB c && validUtf8 r2
      | [] => false
    else if b = 224 then
      match rest with
      | c :: d :: r2 => decide (160 ≤ c ∧ c ≤ 191) && contB d && validUtf8 r2
      | _ => false
    else if 225 ≤ b ∧ b ≤ 236 then
      match rest with
      | c :: d :: r2 => contB c && contB d && validUtf8 r2
      | _ => false
    else if b = 237 then
      match rest with
      | c :: d :: r2 => decide (128 ≤ c ∧ c ≤ 159) && contB d && validUtf8 r2
      | _ => false
    else if 238 ≤ b ∧ b ≤ 239 then
      match rest with
      | c :: d :: r2 => contB c && contB d && validUtf8 r2
      | _ => false
    else if b = 240 then
      match rest with
      | c :: d :: e :: r2 =>
        decide (144 ≤ c ∧ c ≤ 191) && contB d && contB e && validUtf8 r2
      | _ => false
    else if 241 ≤ b ∧ b ≤ 243 then
      match rest with
      | c :: d :: e :: r2 => contB c && contB d && contB e && validUtf8 r2
      | _ => false
    else if b = 244 then
      match rest with
      | c :: d :: e :: r2 =>
        decide (128 ≤ c ∧ c ≤ 143) && contB d && contB e && validUtf8 r2
      | _ => false
    else false

/-- Outcome of reading the variable-length remaining-length field. -/
inductive RemLenRes where
  | done (n : Nat) (rest : List Nat)
  | more
  | bad
deriving DecidableEq

/-- Modelled from the spec: read the remaining-length field — 7 bits per
byte, least significant group first, continuation bit 0x80; a continuation
bit on the fourth byte means the encoding exceeds 4 bytes and is malformed;
running out of bytes means the field is incomplete. `depth` counts bytes
already consumed, `acc` their accumulated value. -/
def remLenGo : List Nat → Nat → Nat → RemLenRes
  | [], _, _ => .more
  | b :: rest, depth, acc =>
    if b < 128 then .done (acc + b * 128 ^ depth) rest
    else if 3 ≤ depth then .bad
    else remLenGo rest (depth + 1) (acc + (b - 128) * 128 ^ depth)

/-- Modelled from the spec: emit the remaining-length field of `n`,
7 bits per byte with continuation bit, least significant group first;
`fuel` bounds the number of bytes produced (4 at top level). -/
def encRemLenFuel : Nat → Nat → List Nat
  | 0, n => [n]
  | fuel + 1, n =>
    if n < 128 then [n] else (n % 128 + 128) :: encRemLenFuel fuel (n / 128)

/-- Modelled from the spec: the 1–4 byte remaining-length encoding of `n`
(valid for `n < 128^4 = 268435456`). -/
def encRemLen (n : Nat) : List Nat :=
  encRemLenFuel 4 n

/-- Modelled from the spec: big-endian two-byte encoding of a 16-bit
integer. -/
def encU16 (n : Nat) : List Nat :=
  [n / 256 % 256, n % 256]

/-- Modelled from the spec: a length-prefixed string — two length bytes,
most significant first, then the bytes. -/
def encStr (s : List Nat) : List Nat :=
  encU16 s.length ++ s

/-- Modelled from the spec: the MQTT 3.1.1 control packets of §3's data
model. The packet identifier is present only for QoS-tracked types; a QoS 0
PUBLISH carries identifier 0 as the "absent" value. Strings and payloads
are byte lists. -/
inductive Packet where
  | connect (clientId : List Nat) (cleanSession : Bool) (keepAlive : Nat)
  | connack (sessionPresent : Bool) (returnCode : Nat)
  | publish (dup : Bool) (qos : Nat) (retain : Bool)
      (topic : List Nat) (packetId : Nat) (payload : List Nat)
  | puback (packetId : Nat)
  | pubrec (packetId : Nat)
  | pubrel (packetId : Nat)
  | pubcomp (packetId : Nat)
  | subscribe (packetId : Nat) (filters : List (List Nat × Nat))
  | suback (packetId : Nat) (codes : List Nat)
  | unsubscribe (packetId : Nat) (filters : List (List Nat))
  | unsuback (packetId : Nat)
  | pingreq
  | pingresp
  | disconnect
deriving DecidableEq

/-- Modelled from the spec: SUBSCRIBE payload — each filter as a
length-prefixed string followed by its requested-QoS byte. -/
def encFilters : List (List Nat × Nat) → List Nat
  | [] => []
  | (s, q) :: t => encStr s ++ q :: encFilters t

/-- Modelled from the spec: UNSUBSCRIBE payload — each filter as a
length-prefixed string. -/
def encTopics : List (List Nat) → List Nat
  | [] => []
  | s :: t => encStr s ++ encTopics t

/-- Modelled from the spec: variable header plus payload of a packet
(everything after the fixed header), per the MQTT 3.1.1 byte layout. -/
def encodeBody : Packet → List Nat
  | .connect cid cs ka =>
    encStr [77, 81, 84, 84] ++ [4, if cs then 2 else 0] ++ encU16 ka ++ encStr cid
  | .connack sp rc => [if sp then 1 else 0, rc]
  | .publish _ q _ topic pid payload =>
    encStr topic ++ (if q = 0 then [] else encU16 pid) ++ payload
  | .puback pid => encU16 pid
  | .pubrec pid => encU16 pid
  | .pubrel pid => encU16 pid
  | .pubcomp pid => encU16 pid
  | .subscribe pid fs => encU16 pid ++ encFilters fs
  | .suback pid cs => encU16 pid ++ cs
  | .unsubscribe pid fs => encU16 pid ++ encTopics fs
  | .unsuback pid => encU16 pid
  | .pingreq => []
  | .pingresp => []
  | .disconnect => []

/-- Modelled from the spec: the fixed-header first byte — packet type in
the high nibble, type-specific flags in the low nibble (PUBLISH carries
DUP/QoS/RETAIN; PUBREL, SUBSCRIBE and UNSUBSCRIBE carry the reserved flag
value 2; all others 0). -/
def fixedHeader : Packet → Nat
  | .connect _ _ _ => 16
  | .connack _ _ => 32
  | .publish dup q r _ _ _ =>
    48 + (if dup then 8 else 0) + q * 2 + (if r then 1 else 0)
  | .puback _ => 64
  | .pubrec _ => 80
  | .pubrel _ => 98
  | .pubcomp _ => 112
  | .subscribe _ _ => 130
  | .suback _ _ => 144
  | .unsubscribe _ _ => 162
  | .unsuback _ => 176
  | .pingreq => 192
  | .pingresp => 208
  | .disconnect => 224

/-- Modelled from the spec: `encode(Packet) -> byte sequence` — fixed
header byte, remaining-length field, then the body. -/
def encodePacket (p : Packet) : List Nat :=
  fixedHeader p :: (encRemLen (encodeBody p).length ++ encodeBody p)

/-- Modelled from the spec: read a big-endian two-byte integer. -/
def parseU16 : List Nat → Option (Nat × List Nat)
  | h :: l :: rest => some (h * 256 + l, rest)
  | _ => none

/-- Modelled from the spec: read a length-prefixed string. -/
def parseStr (bs : List Nat) : Option (List Nat × List Nat) :=
  match parseU16 bs with
  | some (n, rest) =>
    if n ≤ rest.length then some (rest.take n, rest.drop n) else none
  | none => none

/-- Modelled from the spec: a body that is exactly one packet
identifier. -/
def parsePid : List Nat → Option Nat
  | [h, l] => some (h * 256 + l)
  | _ => none

/-- Modelled from the spec: CONNECT body — protocol name "MQTT", level 4,
connect flags (only the clean-session bit in this profile), keepalive,
client identifier. -/
def parseConnect (body : List Nat) : Option Packet :=
  match body with
  | b0 :: b1 :: b2 :: b3 :: b4 :: b5 :: b6 :: cf :: rest =>
    if b0 = 0 ∧ b1 = 4 ∧ b2 = 77 ∧ b3 = 81 ∧ b4 = 84 ∧ b5 = 84 ∧ b6 = 4 then
      match parseU16 rest with
      | some (ka, rest2) =>
        match parseStr rest2 with
        | some (cid, []) =>
          if validUtf8 cid then
            if cf = 0 then some (.connect cid false ka)
            else if cf = 2 then some (.connect cid true ka)
            else none
          else none
        | _ => none
      | none => none
    else none
  | _ => none

/-- Modelled from the spec: CONNACK body — session-present byte (0 or 1)
and return code. -/
def parseConnack : List Nat → Option Packet
  | [sp, rc] =>
    if sp = 0 then some (.connack false rc)
    else if sp = 1 then some (.connack true rc)
    else none
  | _ => none

/-- Modelled from the spec: PUBLISH — flags nibble carries RETAIN/QoS/DUP
(QoS 3 and DUP on a QoS 0 message are malformed), body is the topic, the
packet identifier when QoS exceeds 0, and the payload. -/
def parsePublish (f : Nat) (body : List Nat) : Option Packet :=
  let q := f / 2 % 4
  let dup : Bool := decide (f / 8 = 1)
  let retain : Bool := decide (f % 2 = 1)
  if q = 3 then none
  else if q = 0 ∧ dup then none
  else
    match parseStr body with
    | some (topic, rest) =>
      if validUtf8 topic then
        if q = 0 then some (.publish false 0 retain topic 0 rest)
        else
          match parseU16 rest with
          | some (pid, payload) => some (.publish dup q retain topic pid payload)
          | none => none
      else none
    | none => none

/-- Modelled from the spec: SUBSCRIBE payload — length-prefixed filters
each followed by a QoS byte at most 2, runs to the end of the body; `fuel`
bounds the recursion by the byte count. -/
def parseFilters : Nat → List Nat → Option (List (List Nat × Nat))
  | 0, bs => if bs = [] then some [] else none
  | fuel + 1, bs =>
    if bs = [] then some []
    else
      match parseStr bs with
      | some (s, q :: rest) =>
        if validUtf8 s ∧ q ≤ 2 then
          match parseFilters fuel rest with
          | some fs => some ((s, q) :: fs)
          | none => none
        else none
      | _ => none

/-- Modelled from the spec: SUBSCRIBE body — packet identifier then a
non-empty filter list. -/
def parseSubscribe (body : List Nat) : Option Packet :=
  match parseU16 body with
  | some (pid, rest) =>
    match parseFilters rest.length rest with
    | some (f :: fs) => some (.subscribe pid (f :: fs))
    | _ => none
  | none => none

/-- Modelled from the spec: SUBACK return codes — granted QoS 0/1/2 or
failure 0x80. -/
def parseCodes : List Nat → Option (List Nat)
  | [] => some []
  | c :: rest =>
    if c ≤ 2 ∨ c = 128 then
      match parseCodes rest with
      | some cs => some (c :: cs)
      | none => none
    else none

/-- Modelled from the spec: SUBACK body — packet identifier then a
non-empty return-code list. -/
def parseSuback (body : List Nat) : Option Packet :=
  match parseU16 body with
  | some (pid, rest) =>
    match parseCodes rest with
    | some (c :: cs) => some (.suback pid (c :: cs))
    | _ => none
  | none => none

/-- Modelled from the spec: UNSUBSCRIBE payload — length-prefixed filters
to the end of the body; `fuel` bounds the recursion by the byte count. -/
def parseTopics : Nat → List Nat → Option (List (List Nat))
  | 0, bs => if bs = [] then some [] else none
  | fuel + 1, bs =>
    if bs = [] then some []
    else
      match parseStr bs with
      | some (s, rest) =>
        if validUtf8 s then
          match parseTopics fuel rest with
          | some ss => some (s :: ss)
          | none => none
        else none
      | none => none

/-- Modelled from the spec: UNSUBSCRIBE body — packet identifier then a
non-empty filter list. -/
def parseUnsubscribe (body : List Nat) : Option Packet :=
  match parseU16 body with
  | some (pid, rest) =>
    match parseTopics rest.length rest with
    | some (s :: ss) => some (.unsubscribe pid (s :: ss))
    | _ => none
  | none => none

/-- Modelled from the spec: dispatch on the packet-type nibble `t` with
flags nibble `f`, checking the reserved flag values ("reserved flag bits
set incorrectly for the packet type" are malformed). -/
def parseBody (t f : Nat) (body : List Nat) : Option Packet :=
  if t = 1 then if f = 0 then parseConnect body else none
  else if t = 2 then if f = 0 then parseConnack body else none
  else if t = 3 then parsePublish f body
  else if t = 4 then
    if f = 0 then
      match parsePid body with
      | some pid => some (.puback pid)
      | none => none
    else none
  else if t = 5 then
    if f = 0 then
      match parsePid body with
      | some pid => some (.pubrec pid)
      | none => none
    else none
  else if t = 6 then
    if f = 2 then
      match parsePid body with
      | some pid => some (.pubrel pid)
      | none => none
    else none
  else if t = 7 then
    if f = 0 then
      match parsePid body with
      | some pid => some (.pubcomp pid)
      | none => none
    else none
  else if t = 8 then if f = 2 then parseSubscribe body else none
  else if t = 9 then if f = 0 then parseSuback body else none
  else if t = 10 then if f = 2 then parseUnsubscribe body else none
  else if t = 11 then
    if f = 0 then
      match parsePid body with
      | some pid => some (.unsuback pid)
      | none => none
    else none
  else if t = 12 then if f = 0 ∧ body = [] then some .pingreq else none
  else if t = 13 then if f = 0 ∧ body = [] then some .pingresp else none
  else if t = 14 then if f = 0 ∧ body = [] then some .disconnect else none
  else none

/-- Outcome of `decode`: a packet with the bytes following it, "need
`needed` more bytes", or Malformed. -/
inductive DecodeResult where
  | ok (p : Packet) (rest : List Nat)
  | incomplete (needed : Nat)
  | malformed
deriving DecidableEq

/-- Whether a decode outcome is the "need more bytes" report. -/
def DecodeResult.isIncomplete : DecodeResult → Bool
  | .incomplete _ => true
  | _ => false

/-- Modelled from the spec: `decode(byte sequence) -> Packet | Incomplete
| Malformed` — read the fixed header byte and the remaining-length field,
report how many bytes are missing when the buffer holds less than one
whole packet, otherwise parse the body and hand back the unconsumed
suffix. -/
def decodePacket : List Nat → DecodeResult
  | [] => .incomplete 1
  | b :: rest =>
    match remLenGo rest 0 0 with
    | .more => .incomplete 1
    | .bad => .malformed
    | .done len body =>
      if body.length < len then .incomplete (len - body.length)
      else
        match parseBody (b / 16) (b % 16) (body.take len) with
        | some p => .ok p (body.drop len)
        | none => .malformed

/-- A byte: a natural below 256. -/
def wfByte (b : Nat) : Bool :=
  decide (b < 256)

/-- Modelled from the spec: a wire-valid string — its length fits the
two-byte length prefix, its elements are bytes and it is valid UTF-8. -/
def wfStr (s : List Nat) : Bool :=
  decide (s.length < 65536) && s.all wfByte && validUtf8 s

/-- Modelled from the spec: an in-use packet identifier — 16 bits,
"skips 0". -/
def wfPid (pid : Nat) : Bool :=
  decide (1 ≤ pid) && decide (pid < 65536)

/-- Modelled from the spec: the per-type field constraints of a valid
packet — client identifier of 1–23 bytes, 16-bit keepalive, byte-sized
return codes, QoS at most 2, DUP clear and identifier absent (0) on QoS 0
PUBLISH, non-empty SUBSCRIBE/SUBACK/UNSUBSCRIBE payloads. -/
def wfFields : Packet → Bool
  | .connect cid _ ka =>
    wfStr cid && decide (1 ≤ cid.length) && decide (cid.length ≤ 23) &&
      decide (ka < 65536)
  | .connack _ rc => decide (rc < 256)
  | .publish dup q _ topic pid payload =>
    wfStr topic && decide (q ≤ 2) &&
      (if q = 0 then !dup && decide (pid = 0) else wfPid pid) &&
      payload.all wfByte
  | .puback pid => wfPid pid
  | .pubrec pid => wfPid pid
  | .pubrel pid => wfPid pid
  | .pubcomp pid => wfPid pid
  | .subscribe pid fs =>
    wfPid pid && !fs.isEmpty &&
      fs.all (fun sq => wfStr sq.1 && decide (sq.2 ≤ 2))
  | .suback pid cs =>
    wfPid pid && !cs.isEmpty && cs.all (fun c => decide (c ≤ 2 ∨ c = 128))
  | .unsubscribe pid fs => wfPid pid && !fs.isEmpty && fs.all wfStr
  | .unsuback pid => wfPid pid
  | .pingreq => true
  | .pingresp => true
  | .disconnect => true

/-- Modelled from the spec: a valid packet — well-formed fields and a body
whose length fits the 4-byte remaining-length field. -/
def validPacket (p : Packet) : Bool :=
  wfFields p && decide ((encodeBody p).length < 268435456)

/-! ## Codec lemmas -/

theorem remLenGo_enc (fuel : Nat) :
    ∀ (n depth acc : Nat) (rest : List Nat),
      1 ≤ fuel → fuel + depth ≤ 4 → n < 128 ^ fuel →
      remLenGo (encRemLenFuel fuel n ++ rest) depth acc =
        .done (acc + n * 128 ^ depth) rest := by
  induction fuel with
  | zero => intro n depth acc rest h1 _ _; omega
  | succ f ih =>
    intro n depth acc rest _ hd hn
    by_cases hlt : n < 128
    · simp [encRemLenFuel, hlt, remLenGo]
    · have hf : 1 ≤ f := by
        by_contra hf0
        have : f = 0 := by omega
        subst this
        simp at hn
        omega
      have hdep : ¬ 3 ≤ depth := by omega
      have hbyte : ¬ n % 128 + 128 < 128 := by omega
      simp only [encRemLenFuel, if_neg hlt, List.cons_append, remLenGo,
        if_neg hbyte, if_neg hdep, Nat.add_sub_cancel]
      rw [ih (n / 128) (depth + 1) (acc + n % 128 * 128 ^ depth) rest hf
        (by omega) (by
          have : 128 ^ (f + 1) = 128 ^ f * 128 := by ring
          omega)]
      have key : n % 128 * 128 ^ depth + n / 128 * 128 ^ (depth + 1) =
          n * 128 ^ depth := by
        have h1 : n % 128 + 128 * (n / 128) = n := Nat.mod_add_div n 128
        calc n % 128 * 128 ^ depth + n / 128 * 128 ^ (depth + 1)
            = (n % 128 + 128 * (n / 128)) * 128 ^ depth := by ring
          _ = n * 128 ^ depth := by rw [h1]
      congr 1
      omega

theorem remLenGo_enc_full (n : Nat) (rest : List Nat) (h : n < 268435456) :
    remLenGo (encRemLen n ++ rest) 0 0 = .done n rest := by
  have := remLenGo_enc 4 n 0 0 rest (by omega) (by omega) (by norm_num; omega)
  simpa [encRemLen] using this

theorem remLenGo_take_more (fuel : Nat) :
    ∀ (n depth acc j : Nat),
      1 ≤ fuel → fuel + depth ≤ 4 → n < 128 ^ fuel →
      j < (encRemLenFuel fuel n).length →
      remLenGo ((encRemLenFuel fuel n).take j) depth acc = .more := by
  induction fuel with
  | zero => intro n depth acc j h1 _ _ _; omega
  | succ f ih =>
    intro n depth acc j _ hd hn hj
    by_cases hlt : n < 128
    · have : j = 0 := by
        simp [encRemLenFuel, hlt] at hj
        omega
      subst this
      simp [remLenGo]
    · have hf : 1 ≤ f := by
        by_contra hf0
        have : f = 0 := by omega
        subst this
        simp at hn
        omega
      match j with
      | 0 => simp [remLenGo]
      | j' + 1 =>
        have hdep : ¬ 3 ≤ depth := by omega
        have hbyte : ¬ n % 128 + 128 < 128 := by omega
        simp only [encRemLenFuel, if_neg hlt, List.length_cons] at hj
        simp only [encRemLenFuel, if_neg hlt, List.take_succ_cons, remLenGo,
          if_neg hbyte, if_neg hdep]
        exact ih (n / 128) (depth + 1) _ j' hf (by omega)
          (by
            have : 128 ^ (f + 1) = 128 ^ f * 128 := by ring
            omega)
          (by omega)

theorem parseU16_enc (n : Nat) (rest : List Nat) (h : n < 65536) :
    parseU16 (encU16 n ++ rest) = some (n, rest) := by
  simp only [encU16, List.cons_append, List.nil_append, parseU16]
  congr 2
  omega

theorem parseStr_enc (s rest : List Nat) (h : s.length < 65536) :
    parseStr (encStr s ++ rest) = some (s, rest) := by
  simp only [encStr, List.append_assoc, parseStr, parseU16_enc s.length (s ++ rest) h]
  rw [if_pos (by simp)]
  rw [List.take_left, List.drop_left]

theorem parsePid_enc (n : Nat) (h : n < 65536) :
    parsePid (encU16 n) = some n := by
  simp only [encU16, parsePid]
  congr 1
  omega

theorem parseStr_enc_nil (s : List Nat) (h : s.length < 65536) :
    parseStr (encStr s) = some (s, []) := by
  have := parseStr_enc s [] h
  simpa using this

theorem encStr_ne_nil (s : List Nat) : encStr s ≠ [] := by
  simp [encStr, encU16]

theorem len_le_encFilters (fs : List (List Nat × Nat)) :
    fs.length ≤ (encFilters fs).length := by
  induction fs with
  | nil => simp [encFilters]
  | cons sq t ih =>
    obtain ⟨s, q⟩ := sq
    simp only [encFilters, List.length_cons, List.length_append, encStr, encU16]
    simp at ih ⊢
    omega

theorem len_le_encTopics (fs : List (List Nat)) :
    fs.length ≤ (encTopics fs).length := by
  induction fs with
  | nil => simp [encTopics]
  | cons s t ih =>
    simp only [encTopics, List.length_append, List.length_cons, encStr, encU16]
    simp at ih ⊢
    omega

theorem parseFilters_enc (fs : List (List Nat × Nat)) :
    ∀ fuel : Nat, fs.length ≤ fuel →
      (∀ sq ∈ fs, sq.1.length < 65536 ∧ validUtf8 sq.1 = true ∧ sq.2 ≤ 2) →
      parseFilters fuel (encFilters fs) = some fs := by
  induction fs with
  | nil =>
    intro fuel _ _
    cases fuel <;> simp [parseFilters, encFilters]
  | cons sq t ih =>
    intro fuel hfuel hall
    obtain ⟨s, q⟩ := sq
    match fuel with
    | 0 => simp at hfuel
    | fu + 1 =>
      obtain ⟨h65, hutf, hq⟩ := hall (s, q) (by simp)
      simp only [encFilters, parseFilters]
      rw [if_neg (by simp [encStr, encU16]), parseStr_enc s (q :: encFilters t) h65]
      simp only [if_pos (And.intro hutf hq)]
      rw [ih fu (by simpa using hfuel)
        (fun sq hsq => hall sq (List.mem_cons_of_mem _ hsq))]

theorem parseTopics_enc (fs : List (List Nat)) :
    ∀ fuel : Nat, fs.length ≤ fuel →
      (∀ s ∈ fs, s.length < 65536 ∧ validUtf8 s = true) →
      parseTopics fuel (encTopics fs) = some fs := by
  induction fs with
  | nil =>
    intro fuel _ _
    cases fuel <;> simp [parseTopics, encTopics]
  | cons s t ih =>
    intro fuel hfuel hall
    match fuel with
    | 0 => simp at hfuel
    | fu + 1 =>
      obtain ⟨h65, hutf⟩ := hall s (by simp)
      simp only [encTopics, parseTopics]
      rw [if_neg (by simp [encStr, encU16]), parseStr_enc s (encTopics t) h65]
      simp only [hutf, if_pos trivial, if_true]
      rw [ih fu (by simpa using hfuel)
        (fun s hs => hall s (List.mem_cons_of_mem _ hs))]

theorem parseCodes_id (cs : List Nat) (h : ∀ c ∈ cs, c ≤ 2 ∨ c = 128) :
    parseCodes cs = some cs := by
  induction cs with
  | nil => simp [parseCodes]
  | cons c t ih =>
    simp only [parseCodes]
    rw [if_pos (h c (by simp)), ih (fun c hc => h c (List.mem_cons_of_mem _ hc))]

theorem decode_step (b : Nat) (body : List Nat) (h : body.length < 268435456) :
    decodePacket (b :: (encRemLen body.length ++ body)) =
      match parseBody (b / 16) (b % 16) body with
      | some p => .ok p []
      | none => .malformed := by
  simp only [decodePacket, remLenGo_enc_full body.length body h]
  rw [if_neg (by omega), List.take_length, List.drop_length]
theorem parseBody_enc (p : Packet) (h : wfFields p = true) :
    parseBody (fixedHeader p / 16) (fixedHeader p % 16) (encodeBody p) = some p := by
  cases p with
  | connect cid cs ka =>
    simp only [wfFields, wfStr, Bool.and_eq_true, decide_eq_true_eq] at h
    obtain ⟨⟨⟨⟨⟨h65, _⟩, hutf⟩, _⟩, _⟩, hka⟩ := h
    have hfix : fixedHeader (Packet.connect cid cs ka) = 16 := rfl
    rw [hfix]
    norm_num [parseBody]
    have hbody : encodeBody (Packet.connect cid cs ka) =
        0 :: 4 :: 77 :: 81 :: 84 :: 84 :: 4 :: (if cs then 2 else 0) ::
          (encU16 ka ++ encStr cid) := by
      have hM : encStr [77, 81, 84, 84] = [0, 4, 77, 81, 84, 84] := by decide
      simp only [encodeBody, hM, List.cons_append, List.nil_append]
    rw [hbody]
    simp only [parseConnect, if_pos (by norm_num :
      (0 : Nat) = 0 ∧ (4 : Nat) = 4 ∧ (77 : Nat) = 77 ∧ (81 : Nat) = 81 ∧
      (84 : Nat) = 84 ∧ (84 : Nat) = 84 ∧ (4 : Nat) = 4)]
    simp only [parseU16_enc ka (encStr cid) hka, parseStr_enc_nil cid h65, hutf,
      if_true]
    cases cs <;> norm_num
  | connack sp rc =>
    have hfix : fixedHeader (Packet.connack sp rc) = 32 := rfl
    rw [hfix]
    norm_num [parseBody]
    cases sp <;> simp [encodeBody, parseConnack]
  | publish dup q retain topic pid payload =>
    simp only [wfFields, wfStr, wfPid, Bool.and_eq_true, decide_eq_true_eq] at h
    obtain ⟨⟨⟨⟨⟨h65, _⟩, hutf⟩, hq⟩, hpid⟩, _⟩ := h
    cases dup <;> cases retain <;> interval_cases q <;>
      simp_all [fixedHeader, parseBody, parsePublish, encodeBody,
        parseStr_enc, parseU16_enc]
  | puback pid =>
    simp only [wfFields, wfPid, Bool.and_eq_true, decide_eq_true_eq] at h
    have hfix : fixedHeader (Packet.puback pid) = 64 := rfl
    rw [hfix]
    norm_num [parseBody]
    simp [encodeBody, parsePid_enc pid h.2]
  | pubrec pid =>
    simp only [wfFields, wfPid, Bool.and_eq_true, decide_eq_true_eq] at h
    have hfix : fixedHeader (Packet.pubrec pid) = 80 := rfl
    rw [hfix]
    norm_num [parseBody]
    simp [encodeBody, parsePid_enc pid h.2]
  | pubrel pid =>
    simp only [wfFields, wfPid, Bool.and_eq_true, decide_eq_true_eq] at h
    have hfix : fixedHeader (Packet.pubrel pid) = 98 := rfl
    rw [hfix]
    norm_num [parseBody]
    simp [encodeBody, parsePid_enc pid h.2]
  | pubcomp pid =>
    simp only [wfFields, wfPid, Bool.and_eq_true, decide_eq_true_eq] at h
    have hfix : fixedHeader (Packet.pubcomp pid) = 112 := rfl
    rw [hfix]
    norm_num [parseBody]
    simp [encodeBody, parsePid_enc pid h.2]
  | subscribe pid fs =>
    simp only [wfFields, wfPid, Bool.and_eq_true, decide_eq_true_eq,
      Bool.not_eq_true', List.isEmpty_eq_false, List.all_eq_true] at h
    obtain ⟨⟨⟨_, hpid2⟩, hne⟩, hall⟩ := h
    have hall' : ∀ sq ∈ fs, sq.1.length < 65536 ∧ validUtf8 sq.1 = true ∧
        sq.2 ≤ 2 := by
      intro sq hsq
      have := hall sq hsq
      simp only [wfStr, Bool.and_eq_true, decide_eq_true_eq] at this
      exact ⟨this.1.1.1, this.1.2, this.2⟩
    have hfix : fixedHeader (Packet.subscribe pid fs) = 130 := rfl
    rw [hfix]
    norm_num [parseBody]
    simp only [encodeBody, parseSubscribe,
      parseU16_enc pid (encFilters fs) hpid2,
      parseFilters_enc fs (encFilters fs).length (len_le_encFilters fs) hall']
    cases fs with
    | nil => simp at hne
    | cons f t => rfl
  | suback pid cs =>
    simp only [wfFields, wfPid, Bool.and_eq_true, decide_eq_true_eq,
      Bool.not_eq_true', List.isEmpty_eq_false, List.all_eq_true] at h
    obtain ⟨⟨⟨_, hpid2⟩, hne⟩, hall⟩ := h
    have hall' : ∀ c ∈ cs, c ≤ 2 ∨ c = 128 := by
      intro c hc
      have := hall c hc
      simpa using this
    have hfix : fixedHeader (Packet.suback pid cs) = 144 := rfl
    rw [hfix]
    norm_num [parseBody]
    simp only [encodeBody, parseSuback, parseU16_enc pid cs hpid2,
      parseCodes_id cs hall']
    cases cs with
    | nil => simp at hne
    | cons c t => rfl
  | unsubscribe pid fs =>
    simp only [wfFields, wfPid, Bool.and_eq_true, decide_eq_true_eq,
      Bool.not_eq_true', List.isEmpty_eq_false, List.all_eq_true] at h
    obtain ⟨⟨⟨_, hpid2⟩, hne⟩, hall⟩ := h
    have hall' : ∀ s ∈ fs, s.length < 65536 ∧ validUtf8 s = true := by
      intro s hs
      have := hall s hs
      simp only [wfStr, Bool.and_eq_true, decide_eq_true_eq] at this
      exact ⟨this.1.1, this.2⟩
    have hfix : fixedHeader (Packet.unsubscribe pid fs) = 162 := rfl
    rw [hfix]
    norm_num [parseBody]
    simp only [encodeBody, parseUnsubscribe, parseU16_enc pid (encTopics fs) hpid2,
      parseTopics_enc fs (encTopics fs).length (len_le_encTopics fs) hall']
    cases fs with
    | nil => simp at hne
    | cons f t => rfl
  | unsuback pid =>
    simp only [wfFields, wfPid, Bool.and_eq_true, decide_eq_true_eq] at h
    have hfix : fixedHeader (Packet.unsuback pid) = 176 := rfl
    rw [hfix]
    norm_num [parseBody]
    simp [encodeBody, parsePid_enc pid h.2]
  | pingreq => decide
  | pingresp => decide
  | disconnect => decide

theorem decode_encode_core (p : Packet) (h : validPacket p = true) :
    decodePacket (encodePacket p) = .ok p [] := by
  simp only [validPacket, Bool.and_eq_true, decide_eq_true_eq] at h
  rw [encodePacket, decode_step (fixedHeader p) (encodeBody p) h.2,
    parseBody_enc p h.1]
theorem decode_take_incomplete (p : Packet) (h : validPacket p = true)
    (k : Nat) (hk : k < (encodePacket p).length) :
    (decodePacket ((encodePacket p).take k)).isIncomplete = true := by
  have hL : (encodeBody p).length < 268435456 := by
    simp only [validPacket, Bool.and_eq_true, decide_eq_true_eq] at h
    exact h.2
  match k with
  | 0 => simp [decodePacket, DecodeResult.isIncomplete]
  | j + 1 =>
    have hlen : (encodePacket p).length =
        1 + (encRemLen (encodeBody p).length).length + (encodeBody p).length := by
      simp [encodePacket]
      omega
    rw [encodePacket, List.take_succ_cons]
    by_cases hj : j < (encRemLen (encodeBody p).length).length
    · rw [List.take_append_of_le_length (Nat.le_of_lt hj)]
      simp only [decodePacket]
      rw [show encRemLen (encodeBody p).length =
        encRemLenFuel 4 (encodeBody p).length from rfl] at hj ⊢
      rw [remLenGo_take_more 4 (encodeBody p).length 0 0 j (by omega) (by omega)
        (by norm_num; omega) hj]
      rfl
    · push_neg at hj
      obtain ⟨m, rfl⟩ : ∃ m, j = (encRemLen (encodeBody p).length).length + m :=
        ⟨j - (encRemLen (encodeBody p).length).length, by omega⟩
      rw [List.take_append]
      simp only [decodePacket]
      rw [remLenGo_enc_full (encodeBody p).length (List.take m (encodeBody p)) hL]
      have hm : m < (encodeBody p).length := by omega
      have hm2 : (List.take m (encodeBody p)).length < (encodeBody p).length := by
        simp [List.length_take]
        omega
      simp [hm2, hm, DecodeResult.isIncomplete]

/-! ## Claims -/

/-- C1: including config.h enables exactly TLS and threading on every build
environment — WITH_TLS and WITH_THREADING are defined unconditionally, and
WITH_TLS_PSK, WITH_SRV, WITH_BROKER, WITH_WEBSOCKETS, WITH_SOCKS and
WITH_ADNS are never defined. -/
theorem config_feature_profile (pf : BuildEnv) :
    (configH pf).withTLS = true ∧ (configH pf).withThreading = true ∧
    (configH pf).withTLSPSK = false ∧ (configH pf).withSRV = false ∧
    (configH pf).withBroker = false ∧ (configH pf).withWebsockets = false ∧
    (configH pf).withSocks = false ∧ (configH pf).withADNS = false := by
  simp [configH]

/-- C2: TOPIC_HIERARCHY_LIMIT expands to the integer literal 200 (on every
build environment), and every topic string whose slash-delimited segment
count exceeds 200 is rejected by the hierarchy check. -/
theorem topic_hierarchy_limit_200 (pf : BuildEnv) :
    TOPIC_HIERARCHY_LIMIT = 200 ∧ (configH pf).topicHierLimit = 200 ∧
    ∀ t : List Char, 200 < topicSegmentCount t → topicHierarchyOk t = false := by
  refine ⟨rfl, rfl, fun t ht => ?_⟩
  simp only [topicHierarchyOk, TOPIC_HIERARCHY_LIMIT, decide_eq_false_iff_not]
  omega

set_option maxRecDepth 8192 in
theorem topic_hierarchy_limit_200_w :
    200 < topicSegmentCount (List.replicate 200 '/') ∧
    topicHierarchyOk (List.replicate 200 '/') = false :=
  ⟨by decide,
   (topic_hierarchy_limit_200
      ⟨false, false, false, false, false, none, false, false, false⟩).2.2
      (List.replicate 200 '/') (by decide)⟩

/-- C3: the plugin header declares exactly one function,
luaopen_plugin_solarmqtt taking a lua_State pointer and returning int, and
that name is exactly the loader symbol Lua derives from the module name
"plugin.solarmqtt". -/
theorem plugin_single_entry_point :
    pluginSolarMQTTDecls =
      [{ name := "luaopen_plugin_solarmqtt"
         argTypes := ["lua_State *"]
         retType := "int" }] ∧
    ("luaopen_plugin_solarmqtt").toList = luaLoaderName ("plugin.solarmqtt").toList :=
  ⟨rfl, by decide⟩

/-- C4: on WIN32 builds config.h renames strcasecmp to _stricmp,
strncasecmp to _strnicmp, strtok_r to strtok_s, and strerror_r(e, b, l) to
strerror_s(b, l, e) with the error argument moved last; on non-WIN32 builds
none of these names is redefined. -/
theorem win32_string_renames (pf : BuildEnv) :
    (pf.win32 = true →
      (configH pf).strcasecmpDef = some "_stricmp" ∧
      (configH pf).strncasecmpDef = some "_strnicmp" ∧
      (configH pf).strtokRDef = some "strtok_s" ∧
      (configH pf).strerrorRDef =
        some (fun e b l => "strerror_s(" ++ b ++ ", " ++ l ++ ", " ++ e ++ ")")) ∧
    (pf.win32 = false →
      (configH pf).strcasecmpDef = none ∧
      (configH pf).strncasecmpDef = none ∧
      (configH pf).strtokRDef = none ∧
      (configH pf).strerrorRDef = none) := by
  constructor <;> intro hw <;> simp [configH, hw]

theorem win32_string_renames_w :
    (configH ⟨false, false, false, true, false, none, true, true, true⟩).strcasecmpDef
        = some "_stricmp" ∧
    (configH ⟨true, false, false, false, false, none, true, true, true⟩).strcasecmpDef
        = none :=
  ⟨((win32_string_renames _).1 rfl).1, ((win32_string_renames _).2 rfl).1⟩

/-- C5: every uthash allocation routes through the mosquitto allocator —
uthash_malloc(sz) expands to mosquitto_malloc(sz) and uthash_free(ptr, sz)
expands to mosquitto_free(ptr), the size argument being discarded. -/
theorem uthash_alloc_override (pf : BuildEnv) (sz ptr sz' : String) :
    (configH pf).uthashMallocDef sz = "mosquitto_malloc(" ++ sz ++ ")" ∧
    (configH pf).uthashFreeDef ptr sz = "mosquitto_free(" ++ ptr ++ ")" ∧
    (configH pf).uthashFreeDef ptr sz = (configH pf).uthashFreeDef ptr sz' :=
  ⟨rfl, rfl, rfl⟩

/-- C6: round-trip law of the wire codec — for every valid packet,
decoding its encoding returns exactly that packet (with no bytes left
over). -/
theorem wire_codec_roundtrip (p : Packet) (h : validPacket p = true) :
    decodePacket (encodePacket p) = .ok p [] :=
  decode_encode_core p h

theorem wire_codec_roundtrip_w :
    validPacket (Packet.publish false 1 true [97, 47, 98] 5 [255]) = true ∧
    decodePacket (encodePacket (Packet.publish false 1 true [97, 47, 98] 5 [255])) =
      .ok (Packet.publish false 1 true [97, 47, 98] 5 [255]) [] :=
  ⟨by decide, wire_codec_roundtrip _ (by decide)⟩

/-- C7: truncation safety of the wire codec — decoding any strict prefix of
a valid packet's encoding reports "need more bytes" (never Malformed), and
decoding once the remaining bytes arrive yields exactly the packet obtained
by decoding the whole buffer at once. -/
theorem wire_codec_truncation_safe (p : Packet) (k : Nat)
    (h : validPacket p = true) (hk : k < (encodePacket p).length) :
    (decodePacket ((encodePacket p).take k)).isIncomplete = true ∧
    decodePacket ((encodePacket p).take k ++ (encodePacket p).drop k) =
      .ok p [] :=
  ⟨decode_take_incomplete p h k hk, by
    rw [List.take_append_drop]
    exact decode_encode_core p h⟩

theorem wire_codec_truncation_safe_w :
    validPacket (Packet.publish false 0 false [97] 0 [1, 2, 3]) = true ∧
    5 < (encodePacket (Packet.publish false 0 false [97] 0 [1, 2, 3])).length ∧
    (decodePacket ((encodePacket (Packet.publish false 0 false [97] 0 [1, 2, 3])).take 5)).isIncomplete
      = true :=
  ⟨by decide, by decide,
   (wire_codec_truncation_safe (Packet.publish false 0 false [97] 0 [1, 2, 3]) 5
      (by decide) (by decide)).1⟩

/-- C8: HAVE_PTHREAD_CANCEL is defined exactly when neither ANDROID nor
WIN32 is defined. -/
theorem have_pthread_cancel_iff (pf : BuildEnv) :
    (configH pf).havePthreadCancel = (!pf.android && !pf.win32) :=
  rfl

/-- C9: inclusion of either header is idempotent — thanks to the include
guards, a second inclusion changes nothing over a single inclusion. -/
theorem include_guard_idempotent (s : TUState) :
    includeConfigH (includeConfigH s) = includeConfigH s ∧
    includePluginH (includePluginH s) = includePluginH s := by
  constructor
  · by_cases hc : s.configGuard <;> simp [includeConfigH, hc]
  · by_cases hp : s.pluginGuard <;> simp [includePluginH, hp]

/-- C10: on MSVC with _MSC_VER below 1900, snprintf expands to sprintf_s,
EPROTO to ECONNABORTED, and ECONNABORTED/ENOTCONN/ECONNREFUSED are defined
as their Winsock codes exactly when not already defined; on all other
compilers none of these macros is introduced. -/
theorem old_msvc_errno_shims (pf : BuildEnv) :
    (oldMSVC pf = true →
      (configH pf).snprintfDef = some "sprintf_s" ∧
      (configH pf).eprotoDef = some "ECONNABORTED" ∧
      (configH pf).econnabortedDef =
        (if pf.econnabortedDefined then none else some "WSAECONNABORTED") ∧
      (configH pf).enotconnDef =
        (if pf.enotconnDefined then none else some "WSAENOTCONN") ∧
      (configH pf).econnrefusedDef =
        (if pf.econnrefusedDefined then none else some "WSAECONNREFUSED")) ∧
    (oldMSVC pf = false →
      (configH pf).snprintfDef = none ∧ (configH pf).eprotoDef = none ∧
      (configH pf).econnabortedDef = none ∧ (configH pf).enotconnDef = none ∧
      (configH pf).econnrefusedDef = none) := by
  obtain ⟨a, fb, nb, w, an, mv, e1, e2, e3⟩ := pf
  constructor <;> intro hm <;> cases e1 <;> cases e2 <;> cases e3 <;>
    simp_all [configH]

theorem old_msvc_errno_shims_w :
    (configH ⟨false, false, false, true, false, some 1800, false, true, false⟩).snprintfDef
        = some "sprintf_s" ∧
    (configH ⟨false, false, false, false, false, none, false, false, false⟩).snprintfDef
        = none :=
  ⟨((old_msvc_errno_shims _).1 (by decide)).1,
   ((old_msvc_errno_shims _).2 (by decide)).1⟩
